import Mathlib

/-!
Shallow embedding of the gameplay simulation core of the Bleda archery game
(src/constants.ts, src/target.ts, src/game.ts).

Numeric conventions: JavaScript numbers are embedded as exact rationals.
Every quantity that the embedded code paths manipulate (scores, multipliers,
sizes, the 0.5-step combo multipliers) stays exact in binary floating point
at the magnitudes the game reaches, so the rational embedding computes the
same values the source does.  Math.round is floor (x + 1/2), which matches
the JavaScript semantics of rounding half toward positive infinity.
Wall-clock timestamps (Date.now()) are embedded as integers (milliseconds).

Distances: the source compares Euclidean distances against non-negative
bounds (distance < size + 0.2).  The embedding compares squared distances
against squared bounds, which is equivalent for non-negative bounds and
keeps every predicate decidable over the rationals.

Angles: the source measures wheel angles in radians and uses the irrational
constants Math.PI/6 (split offset), Math.PI/4 (minimum angular spacing) and
2*Math.PI (full circle).  The embedding models angles as rationals and
passes those constants as parameters; all verified statements about angles
are arithmetic in the constants, so they hold for the source's values.
-/

namespace Bleda

/-! ### Constants from src/constants.ts -/

/-- TARGET_CONFIG.COMBO_TIME_WINDOW (ms). -/
def COMBO_TIME_WINDOW : ℤ := 2000

/-- TARGET_CONFIG.COMBO_MULTIPLIER_INCREMENT. -/
def COMBO_MULTIPLIER_INCREMENT : ℚ := 1/2

/-- TARGET_CONFIG.MAX_COMBO_MULTIPLIER. -/
def MAX_COMBO_MULTIPLIER : ℚ := 5

/-- TARGET_CONFIG.MAX_TARGETS_ON_WHEEL. -/
def MAX_TARGETS_ON_WHEEL : ℕ := 5

/-- POWERUP_CONFIG.SCORE_MULTIPLIER.MULTIPLIER. -/
def SCORE_MULTIPLIER_VALUE : ℚ := 3

/-- OBSTACLE_CONFIG.STUN_DURATION (ms). -/
def STUN_DURATION : ℤ := 2000

/-- OBSTACLE_CONFIG.STUN_MOVEMENT_MULTIPLIER. -/
def STUN_MOVEMENT_MULTIPLIER : ℚ := 3/10

/-- OBSTACLE_CONFIG.SCORE_PENALTY. -/
def SCORE_PENALTY : ℤ := 5

/-- TARGET_CONFIG.MAGNETIC.MAGNETIC_RANGE. -/
def MAGNETIC_RANGE : ℚ := 3

/-- TARGET_CONFIG.MAGNETIC.MAGNETIC_FORCE. -/
def MAGNETIC_FORCE : ℚ := 3/10

/-- TARGET_CONFIG.MAGNETIC.SIZE. -/
def MAGNETIC_SIZE : ℚ := 2/5

/-- TARGET_CONFIG.SHRINKING.SIZE_START. -/
def SHRINK_SIZE_START : ℚ := 3/5

/-- TARGET_CONFIG.SHRINKING.SIZE_MIN. -/
def SHRINK_SIZE_MIN : ℚ := 1/5

/-- TARGET_CONFIG.SHRINKING.SHRINK_RATE. -/
def SHRINK_RATE : ℚ := 17/20

/-- TARGET_CONFIG.SHRINKING.MAX_MISSES. -/
def MAX_MISSES : ℕ := 3

/-- TARGET_CONFIG.SHRINKING.POINTS_MAX. -/
def SHRINK_POINTS_MAX : ℚ := 75

/-- TARGET_CONFIG.SHRINKING.POINTS_MIN. -/
def SHRINK_POINTS_MIN : ℚ := 10

/-- TARGET_CONFIG.SPLIT.POINTS. -/
def SPLIT_POINTS : ℤ := 30

/-- TARGET_CONFIG.SPLIT.SIZE. -/
def SPLIT_SIZE : ℚ := 1/2

/-- TARGET_CONFIG.SPLIT.MAX_SPLITS. -/
def MAX_SPLITS : ℕ := 2

/-- TARGET_CONFIG.SPLIT.SPLIT_SIZE_MULTIPLIER. -/
def SPLIT_SIZE_MULTIPLIER : ℚ := 7/10

/-- Math.round on an exact rational: floor (q + 1/2), rounding half toward
positive infinity, as JavaScript does. -/
def jsRound (q : ℚ) : ℤ := ⌊q + 1/2⌋

/-! ### Combo state (Game.updateCombo, game.ts) -/

/-- Combo fields of the Game class: comboCount, comboMultiplier, lastHitTime. -/
structure ComboState where
  comboCount : ℕ
  comboMultiplier : ℚ
  lastHitTime : ℤ
deriving DecidableEq, Repr

/-- Initial values of the combo fields in the Game class declaration:
comboCount = 0, comboMultiplier = 1, lastHitTime = 0. -/
def initialCombo : ComboState := ⟨0, 1, 0⟩

/-- Game.updateCombo: if now - lastHitTime <= COMBO_TIME_WINDOW, increment
comboCount and set comboMultiplier to
min (1 + comboCount * COMBO_MULTIPLIER_INCREMENT) MAX_COMBO_MULTIPLIER
(with the already-incremented count); otherwise reset comboCount to 1 and
comboMultiplier to 1.  lastHitTime is set to now in both branches. -/
def updateCombo (s : ComboState) (now : ℤ) : ComboState :=
  if now - s.lastHitTime ≤ COMBO_TIME_WINDOW then
    let c := s.comboCount + 1
    let m := 1 + (c : ℚ) * COMBO_MULTIPLIER_INCREMENT
    -- Math.min, written as its defining conditional so it computes
    ⟨c, if m ≤ MAX_COMBO_MULTIPLIER then m else MAX_COMBO_MULTIPLIER, now⟩
  else
    ⟨1, 1, now⟩

/-- Run updateCombo over a list of hit timestamps, recording the combo
multiplier seen right after each hit. -/
def comboTraceFrom (s : ComboState) (ts : List ℤ) : List ℚ :=
  (ts.foldl (fun p t =>
    let s' := updateCombo p.1 t
    (s', p.2 ++ [s'.comboMultiplier])) ((s, []) : ComboState × List ℚ)).2

/-! ### Hit scoring (Game.checkCollisions hit branch, game.ts) -/

/-- Score-relevant fields of the Game class at the moment a projectile-target
hit is processed: the running score, the global power-up score multiplier,
and the combo state. -/
structure HitScoreState where
  score : ℤ
  scoreMultiplier : ℚ
  combo : ComboState
deriving DecidableEq, Repr

/-- Game.checkCollisions, hit branch: scoreGain =
Math.round(basePoints * scoreMultiplier * comboMultiplier) is added to the
score, then updateCombo runs (so the gain uses the combo multiplier from
before this hit). -/
def processHit (s : HitScoreState) (basePoints : ℤ) (now : ℤ) : HitScoreState :=
  let gain := jsRound ((basePoints : ℚ) * s.scoreMultiplier * s.combo.comboMultiplier)
  { score := s.score + gain
    scoreMultiplier := s.scoreMultiplier
    combo := updateCombo s.combo now }

/-! ### Obstacle collision and stun (Game.handleObstacleCollision,
Game.updateObstacles, Game.animate, game.ts) -/

/-- Fields of the Game class touched by an obstacle-player collision. -/
structure PlayerState where
  score : ℤ
  isStunned : Bool
  stunnedUntil : ℤ
  combo : ComboState
deriving DecidableEq, Repr

/-- Active flag of an obstacle. -/
structure ObstacleRec where
  isActive : Bool
deriving DecidableEq, Repr

/-- Game.handleObstacleCollision: deactivate the obstacle, set
isStunned = true and stunnedUntil = now + STUN_DURATION, and set
score = Math.max(0, score - SCORE_PENALTY).  The combo fields are not
touched; the remaining statements of the source method drive the UI and the
camera shake only. -/
def handleObstacleCollision (s : PlayerState) (ob : ObstacleRec) (now : ℤ) :
    PlayerState × ObstacleRec :=
  ({ score := max 0 (s.score - SCORE_PENALTY)
     isStunned := true
     stunnedUntil := now + STUN_DURATION
     combo := s.combo }, { ob with isActive := false })

/-- Stun-expiry check at the top of Game.updateObstacles: the stun flag is
cleared once the wall clock reaches stunnedUntil. -/
def updateStun (s : PlayerState) (now : ℤ) : PlayerState :=
  if s.isStunned = true ∧ s.stunnedUntil ≤ now then { s with isStunned := false } else s

/-- Movement multiplier applied to BLEDA_SPEED in Game.animate:
STUN_MOVEMENT_MULTIPLIER while stunned, 1 otherwise. -/
def movementMultiplier (isStunned : Bool) : ℚ :=
  if isStunned then STUN_MOVEMENT_MULTIPLIER else 1

/-! ### Collision geometry (Target.checkCollision, GhostTarget, target.ts) -/

/-- Rational 3-vector standing for a THREE.Vector3. -/
structure Vec3 where
  x : ℚ
  y : ℚ
  z : ℚ
deriving DecidableEq, Repr

/-- Squared Euclidean distance.  The source compares the distance itself
against non-negative bounds; every such comparison is embedded in the
equivalent squared form. -/
def distSq (a b : Vec3) : ℚ :=
  (a.x - b.x)^2 + (a.y - b.y)^2 + (a.z - b.z)^2

/-- Fields of the abstract Target class that checkCollision reads. -/
structure TargetBase where
  isActive : Bool
  size : ℚ
  worldPos : Vec3
deriving DecidableEq, Repr

/-- Target.checkCollision: false when inactive, otherwise true iff the
distance from the arrow to the target's world position is below
size + 0.2 (embedded as the squared comparison). -/
def TargetBase.checkCollision (t : TargetBase) (arrowPosition : Vec3) : Bool :=
  t.isActive && decide (distSq arrowPosition t.worldPos < (t.size + 1/5)^2)

/-- GhostTarget state: the base target fields plus the phase flag. -/
structure GhostState where
  base : TargetBase
  isVisible : Bool
deriving DecidableEq, Repr

/-- GhostTarget.checkCollision: false while in the invisible phase,
otherwise defer to Target.checkCollision. -/
def GhostState.checkCollision (g : GhostState) (arrowPosition : Vec3) : Bool :=
  if !g.isVisible then false else g.base.checkCollision arrowPosition

/-! ### Magnetic target (MagneticTarget.getMagneticForce, target.ts) -/

/-- Componentwise vector difference (THREE.Vector3.subVectors). -/
def vsub (a b : Vec3) : Vec3 :=
  ⟨a.x - b.x, a.y - b.y, a.z - b.z⟩

/-- Scalar multiple of a vector (THREE.Vector3.multiplyScalar). -/
def smul (c : ℚ) (v : Vec3) : Vec3 :=
  ⟨c * v.x, c * v.y, c * v.z⟩

/-- Squared Euclidean norm of a vector. -/
def magSq (v : Vec3) : ℚ :=
  v.x^2 + v.y^2 + v.z^2

/-- MagneticTarget.getMagneticForce.  The source returns null when the
target is inactive or the arrow's distance d from the target is not
strictly between the target's own size and MAGNETIC_RANGE, and otherwise
returns (targetWorldPos - arrowPosition).normalize() scaled by
MAGNETIC_FORCE * (1 - d / MAGNETIC_RANGE); normalizing divides by d, so the
result is the difference vector scaled by that magnitude over d.  The
Euclidean distance is irrational in general, so the embedding takes d as an
argument; the theorems constrain it by d^2 = distSq arrowPosition
targetWorldPos. -/
def getMagneticForce (isActive : Bool) (size : ℚ) (targetWorldPos arrowPosition : Vec3)
    (d : ℚ) : Option Vec3 :=
  if isActive = false then none
  else if d < MAGNETIC_RANGE ∧ size < d then
    some (smul (MAGNETIC_FORCE * (1 - d / MAGNETIC_RANGE) / d) (vsub targetWorldPos arrowPosition))
  else none

/-! ### Split target (SplitTarget, target.ts; split handling in
Game.checkCollisions, game.ts) -/

/-- State of a SplitTarget. -/
structure SplitRec where
  wheelAngle : ℚ
  splitCount : ℕ
  size : ℚ
  points : ℤ
  isActive : Bool
deriving DecidableEq, Repr

/-- SplitTarget constructor: size = SPLIT.SIZE * SPLIT_SIZE_MULTIPLIER ^
splitCount, points = SPLIT.POINTS.  The wheel angle is measured in the
rational angle model (the source value Math.PI / 6 for the split offset is
abstracted as a parameter below). -/
def mkSplitTarget (angle : ℚ) (splitCount : ℕ) : SplitRec :=
  { wheelAngle := angle
    splitCount := splitCount
    size := SPLIT_SIZE * SPLIT_SIZE_MULTIPLIER ^ splitCount
    points := SPLIT_POINTS
    isActive := true }

/-- Special payload of a split hit: the children's split level and angles. -/
structure SplitSpecial where
  splitLevel : ℕ
  angles : List ℚ
deriving DecidableEq, Repr

/-- Result of SplitTarget.onHit. -/
structure SplitHitResult where
  points : ℤ
  special : Option SplitSpecial
deriving DecidableEq, Repr

/-- SplitTarget.onHit: deactivate; below MAX_SPLITS return the point value
plus a split instruction carrying splitLevel = splitCount + 1 and angles
wheelAngle minus and plus the split offset; at or above MAX_SPLITS return the plain
point award.  The split offset (Math.PI / 6 in the source) is the parameter
splitAngle. -/
def SplitRec.onHit (t : SplitRec) (splitAngle : ℚ) : SplitRec × SplitHitResult :=
  let t' := { t with isActive := false }
  if t.splitCount < MAX_SPLITS then
    (t', { points := t.points
           special := some { splitLevel := t.splitCount + 1
                             angles := [t.wheelAngle - splitAngle, t.wheelAngle + splitAngle] } })
  else
    (t', { points := t.points, special := none })

/-- Split handling in Game.checkCollisions: for each angle in the special
payload, a new SplitTarget at that angle with the payload's split level is
appended to the target list. -/
def applySplitSpecial (targets : List SplitRec) (r : SplitHitResult) : List SplitRec :=
  match r.special with
  | some sp => targets ++ sp.angles.map (fun a => mkSplitTarget a sp.splitLevel)
  | none => targets

/-- Net effect of a split-target hit on the target list in
Game.checkCollisions: the hit parent is deactivated and removed (via
targetsToRemove), so the argument is the list of the other targets, and the
children from the hit result are appended. -/
def processSplitHit (others : List SplitRec) (hit : SplitRec) (splitAngle : ℚ) :
    List SplitRec :=
  applySplitSpecial others (hit.onHit splitAngle).2

/-! ### Shrinking target (ShrinkingTarget, target.ts) -/

/-- State of a ShrinkingTarget. -/
structure ShrinkRec where
  currentSize : ℚ
  missCount : ℕ
  points : ℤ
  isActive : Bool
deriving DecidableEq, Repr

/-- ShrinkingTarget.updatePoints: linear interpolation of the point value
between POINTS_MIN and POINTS_MAX as a function of the current size,
rounded. -/
def shrinkPoints (size : ℚ) : ℤ :=
  jsRound (SHRINK_POINTS_MIN +
    (size - SHRINK_SIZE_MIN) / (SHRINK_SIZE_START - SHRINK_SIZE_MIN) *
      (SHRINK_POINTS_MAX - SHRINK_POINTS_MIN))

/-- ShrinkingTarget constructor: starts at SIZE_START with the
corresponding interpolated point value. -/
def mkShrinkingTarget : ShrinkRec :=
  { currentSize := SHRINK_SIZE_START
    missCount := 0
    points := shrinkPoints SHRINK_SIZE_START
    isActive := true }

/-- ShrinkingTarget.onMiss: increment the miss count; if it has reached
MAX_MISSES, deactivate and return (size and points untouched); otherwise
multiply the size by SHRINK_RATE, clamp it from below at SIZE_MIN, and
recompute the point value. -/
def ShrinkRec.onMiss (t : ShrinkRec) : ShrinkRec :=
  let mc := t.missCount + 1
  if MAX_MISSES ≤ mc then
    { t with missCount := mc, isActive := false }
  else
    let s0 := t.currentSize * SHRINK_RATE
    let s1 := if s0 < SHRINK_SIZE_MIN then SHRINK_SIZE_MIN else s0
    { currentSize := s1, missCount := mc, points := shrinkPoints s1, isActive := t.isActive }

/-! ### Power-up ledger (Game.activatePowerUp, Game.updatePowerUps,
Game.hasActivePowerUp, game.ts) -/

/-- PowerUpType enum. -/
inductive PUType where
  | rapidFire
  | explosiveArrows
  | scoreMultiplier
deriving DecidableEq, Repr

/-- PowerUpEffect record appended to the ledger on activation. -/
structure PowerUpEffect where
  type : PUType
  startTime : ℤ
  duration : ℤ
deriving DecidableEq, Repr

/-- Ledger-related fields of the Game class: the activePowerUps list and
the global scoreMultiplier. -/
structure LedgerState where
  activePowerUps : List PowerUpEffect
  scoreMultiplier : ℚ
deriving DecidableEq, Repr

/-- Game.getPowerUpDuration. -/
def getPowerUpDuration : PUType → ℤ
  | .rapidFire => 8000
  | .explosiveArrows => 10000
  | .scoreMultiplier => 12000

/-- Game.activatePowerUp: push a new effect onto the ledger; a
score-multiplier pickup additionally sets the global multiplier to 3. -/
def activatePowerUp (s : LedgerState) (ty : PUType) (now : ℤ) : LedgerState :=
  { activePowerUps := s.activePowerUps ++ [⟨ty, now, getPowerUpDuration ty⟩]
    scoreMultiplier :=
      if ty = PUType.scoreMultiplier then SCORE_MULTIPLIER_VALUE else s.scoreMultiplier }

/-- Expiry test in Game.updatePowerUps: now - startTime >= duration. -/
def effectExpired (now : ℤ) (e : PowerUpEffect) : Bool :=
  decide (e.duration ≤ now - e.startTime)

/-- Expiry pass of Game.updatePowerUps: every expired effect is dropped
from the ledger, and for each expired score-multiplier effect the global
multiplier is set back to 1 — so the multiplier ends up 1 exactly when at
least one score-multiplier effect expired in this pass, regardless of any
other score-multiplier effect still running. -/
def updatePowerUpsExpiry (s : LedgerState) (now : ℤ) : LedgerState :=
  { activePowerUps := s.activePowerUps.filter (fun e => !effectExpired now e)
    scoreMultiplier :=
      if s.activePowerUps.any
          (fun e => effectExpired now e && decide (e.type = PUType.scoreMultiplier))
      then 1 else s.scoreMultiplier }

/-- Game.hasActivePowerUp: some ledger entry has the given type. -/
def hasActivePowerUp (s : LedgerState) (ty : PUType) : Bool :=
  s.activePowerUps.any (fun e => decide (e.type = ty))

/-- Invariant claimed by C8 at tick boundaries: the global multiplier is 3
exactly when a score-multiplier effect is in the ledger (and is 1
otherwise). -/
def smInvariant (s : LedgerState) : Prop :=
  (s.scoreMultiplier = SCORE_MULTIPLIER_VALUE ↔
    hasActivePowerUp s PUType.scoreMultiplier = true) ∧
  (s.scoreMultiplier = 1 ∨ s.scoreMultiplier = SCORE_MULTIPLIER_VALUE)

/-- Number of score-multiplier effects in the ledger. -/
def scoreEffectCount (s : LedgerState) : ℕ :=
  (s.activePowerUps.filter (fun e => decide (e.type = PUType.scoreMultiplier))).length

/-! ### Target spawning (Game.spawnTarget, Game.updateTargets, game.ts) -/

/-- TargetType enum. -/
inductive TargetType where
  | standard
  | gold
  | speed
  | bonus
  | shrinking
  | split
  | mystery
  | ghost
  | magnetic
  | explosive
deriving DecidableEq, Repr

/-- A target as the spawn logic sees it: its variant and its angular slot on
the wheel. -/
structure TargetSlot where
  kind : TargetType
  wheelAngle : ℚ
deriving DecidableEq, Repr

/-- Validity test for a candidate spawn angle in Game.spawnTarget: for every
occupied angle o, the raw difference |a - o| must be neither below the
minimum angular distance mu nor above tau - mu (tau is the full circle,
2 * Math.PI in the source; mu is Math.PI / 4). -/
def angleValid (mu tau : ℚ) (occupied : List ℚ) (a : ℚ) : Bool :=
  occupied.all fun o => !(decide (|a - o| < mu) || decide (tau - mu < |a - o|))

/-- Rejection sampling in Game.spawnTarget: at most 10 random attempts, the
first valid one wins; none leads to a skipped spawn cycle.  The random
draws are passed in as the oracle list `attempts`. -/
def findValidAngle (mu tau : ℚ) (occupied : List ℚ) (attempts : List ℚ) : Option ℚ :=
  (attempts.take 10).find? (angleValid mu tau occupied)

/-- Per-variant spawn chances of the non-standard variants, in the order
Game.spawnTarget lists them. -/
def spawnChances : List (TargetType × ℚ) :=
  [(.gold, 3/10), (.speed, 2/5), (.bonus, 1/10), (.shrinking, 1/4),
   (.split, 1/5), (.mystery, 3/20), (.ghost, 1/5), (.magnetic, 1/4), (.explosive, 1/5)]

/-- Weighted cumulative-probability draw in Game.spawnTarget: walk the
chance table accumulating chances and select the first variant whose
cumulative chance reaches the random roll. -/
def selectSpawnKind (roll : ℚ) : Option TargetType :=
  (spawnChances.foldl
    (fun acc p =>
      match acc.1 with
      | some _ => acc
      | none =>
        let c := acc.2 + p.2
        if roll ≤ c then (some p.1, c) else (none, c))
    ((none, 0) : Option TargetType × ℚ)).1

/-- Game.spawnTarget: do nothing at or above MAX_TARGETS_ON_WHEEL; otherwise
find a valid angle by rejection sampling (skip the cycle on failure), draw a
variant (skip on failure), and append the new target. -/
def spawnTarget (targets : List TargetSlot) (attempts : List ℚ) (roll mu tau : ℚ) :
    List TargetSlot :=
  if MAX_TARGETS_ON_WHEEL ≤ targets.length then targets
  else
    match findValidAngle mu tau (targets.map TargetSlot.wheelAngle) attempts with
    | none => targets
    | some a =>
      match selectSpawnKind roll with
      | none => targets
      | some k => targets ++ [⟨k, a⟩]

/-- Tail of Game.updateTargets: if the target list is empty, force-spawn a
Standard target at angle 0. -/
def ensureTargetPresent (targets : List TargetSlot) : List TargetSlot :=
  if targets.length = 0 then [⟨.standard, 0⟩] else targets

/-! ### Miss broadcast (miss branch of Game.checkCollisions, game.ts) -/

/-- Scoring-band test in the miss branch of Game.checkCollisions, exactly as
the source writes it: arrow.mesh.position.z < -20 && arrow.mesh.position.z
> -10. -/
def missBandCheck (z : ℚ) : Bool :=
  decide (z < -20) && decide (-10 < z)

/-- Miss branch of Game.checkCollisions: when the arrow hit no target, is
still active, and missBandCheck holds of its z position, every active
target receives onMiss.  Only ShrinkingTarget overrides onMiss, so the
target list is modelled as Shrinking targets. -/
def missBroadcast (hitAnyTarget arrowActive : Bool) (arrowZ : ℚ)
    (targets : List ShrinkRec) : List ShrinkRec :=
  if !hitAnyTarget && arrowActive && missBandCheck arrowZ then
    targets.map fun t => if t.isActive then t.onMiss else t
  else targets

/-! ### Theorems -/

/-- C1 (counterexample).  The spec's worked example fails on the code: from
the Game's initial combo state (count 0, multiplier 1, lastHitTime 0), hits
at t = 0, 500, 900, 3500 ms do not yield the claimed multipliers
1, 1.5, 2.0, 1.5 — and neither do they when the first hit arrives with the
window already lapsed (lastHitTime far in the past). -/
theorem combo_example_counterexample :
    comboTraceFrom initialCombo [0, 500, 900, 3500] ≠ [1, 3/2, 2, 3/2] ∧
    comboTraceFrom ⟨0, 1, -1000000⟩ [0, 500, 900, 3500] ≠ [1, 3/2, 2, 3/2] := by
  constructor <;>
    norm_num [comboTraceFrom, updateCombo, initialCombo, COMBO_TIME_WINDOW,
      COMBO_MULTIPLIER_INCREMENT, MAX_COMBO_MULTIPLIER]

/-- C1 (amended).  Game.updateCombo follows the stated rule exactly: within
the 2000 ms window the count is incremented and the multiplier becomes
min (1 + count * 0.5) 5; otherwise count and multiplier reset to 1;
lastHitTime becomes nowMs in both branches.  From the initial state, hits at
t = 0, 500, 900 ms yield multipliers 1.5, 2.0, 2.5, and a next hit at
t = 3500 ms yields multiplier 1 (the reset branch sets it straight to 1,
with no increment after the reset). -/
theorem combo_update_rule (s : ComboState) (now : ℤ) :
    (now - s.lastHitTime ≤ 2000 →
      updateCombo s now =
        ⟨s.comboCount + 1, min (1 + ((s.comboCount : ℚ) + 1) * (1/2)) 5, now⟩) ∧
    (2000 < now - s.lastHitTime → updateCombo s now = ⟨1, 1, now⟩) ∧
    comboTraceFrom initialCombo [0, 500, 900, 3500] = [3/2, 2, 5/2, 1] := by
  refine ⟨fun h => ?_, fun h => ?_,
    by norm_num [comboTraceFrom, updateCombo, initialCombo, COMBO_TIME_WINDOW,
      COMBO_MULTIPLIER_INCREMENT, MAX_COMBO_MULTIPLIER]⟩
  · simp only [updateCombo, COMBO_TIME_WINDOW, if_pos h, COMBO_MULTIPLIER_INCREMENT,
      MAX_COMBO_MULTIPLIER, min_def]
    push_cast
    ring_nf
  · simp only [updateCombo, COMBO_TIME_WINDOW, if_neg (not_le.mpr h)]

/-- C1 witness: a hit inside the window and a hit outside it, evaluated. -/
theorem combo_update_rule_witness :
    updateCombo ⟨2, 2, 100⟩ 1500 = ⟨3, 5/2, 1500⟩ ∧
    updateCombo ⟨2, 2, 100⟩ 9999 = ⟨1, 1, 9999⟩ := by
  have h1 := (combo_update_rule ⟨2, 2, 100⟩ 1500).1 (by decide)
  have h2 := (combo_update_rule ⟨2, 2, 100⟩ 9999).2.1 (by decide)
  refine ⟨?_, h2⟩
  rw [h1]
  norm_num

/-- C2.  Game.checkCollisions awards, for every projectile-target hit,
exactly round(basePoints * scoreMultiplier * comboMultiplier) points,
using the combo multiplier in force before the hit is registered.
In particular a Standard target (10 points) with no power-up multiplier and
a reset combo (multiplier 1) awards 10 points, and the same hit with the
times-3 score multiplier and combo multiplier 2.0 awards 60 points. -/
theorem hit_score_award (s : HitScoreState) (basePoints now : ℤ) :
    (processHit s basePoints now).score =
      s.score + jsRound ((basePoints : ℚ) * s.scoreMultiplier * s.combo.comboMultiplier) ∧
    (s.scoreMultiplier = 1 → s.combo.comboMultiplier = 1 → basePoints = 10 →
      (processHit s basePoints now).score = s.score + 10) ∧
    (s.scoreMultiplier = 3 → s.combo.comboMultiplier = 2 → basePoints = 10 →
      (processHit s basePoints now).score = s.score + 60) := by
  refine ⟨rfl, fun h1 h2 h3 => ?_, fun h1 h2 h3 => ?_⟩
  · simp only [processHit, h1, h2, h3, jsRound]
    norm_num
  · simp only [processHit, h1, h2, h3, jsRound]
    norm_num

/-- C2 witness: the two end-to-end award scenarios, evaluated. -/
theorem hit_score_award_witness :
    (processHit ⟨0, 1, ⟨1, 1, 0⟩⟩ 10 100).score = 0 + 10 ∧
    (processHit ⟨5, 3, ⟨4, 2, 0⟩⟩ 10 100).score = 5 + 60 :=
  ⟨(hit_score_award ⟨0, 1, ⟨1, 1, 0⟩⟩ 10 100).2.1 rfl rfl rfl,
   (hit_score_award ⟨5, 3, ⟨4, 2, 0⟩⟩ 10 100).2.2 rfl rfl rfl⟩

/-- C3.  An obstacle-player collision deactivates the obstacle, lowers the
score by the fixed penalty 5 floored at 0, starts a 2000 ms stun window
during which the movement speed multiplier is 0.3, and leaves the combo
count and multiplier untouched: the stun flag stays set at any wall-clock
instant before now + 2000 and is cleared at any instant from now + 2000 on. -/
theorem obstacle_collision_effects (s : PlayerState) (ob : ObstacleRec) (now : ℤ) :
    (handleObstacleCollision s ob now).2.isActive = false ∧
    (handleObstacleCollision s ob now).1.score = max 0 (s.score - 5) ∧
    0 ≤ (handleObstacleCollision s ob now).1.score ∧
    (handleObstacleCollision s ob now).1.isStunned = true ∧
    (handleObstacleCollision s ob now).1.stunnedUntil = now + 2000 ∧
    (handleObstacleCollision s ob now).1.combo = s.combo ∧
    movementMultiplier true = 3/10 ∧
    (∀ t : ℤ, t < now + 2000 →
      (updateStun (handleObstacleCollision s ob now).1 t).isStunned = true) ∧
    (∀ t : ℤ, now + 2000 ≤ t →
      (updateStun (handleObstacleCollision s ob now).1 t).isStunned = false) := by
  refine ⟨rfl, rfl, le_max_left 0 _, rfl, rfl, rfl, rfl, fun t ht => ?_, fun t ht => ?_⟩
  · have hn : ¬ (now + 2000 ≤ t) := by omega
    simp [handleObstacleCollision, updateStun, STUN_DURATION, hn]
  · simp [handleObstacleCollision, updateStun, STUN_DURATION, ht]

/-- C3 witness: a collision at now = 100 from score 3, evaluated during and
after the stun window. -/
theorem obstacle_collision_effects_witness :
    (updateStun (handleObstacleCollision ⟨3, false, 0, ⟨2, 2, 50⟩⟩ ⟨true⟩ 100).1 500).isStunned
        = true ∧
    (updateStun (handleObstacleCollision ⟨3, false, 0, ⟨2, 2, 50⟩⟩ ⟨true⟩ 100).1 2100).isStunned
        = false :=
  ⟨(obstacle_collision_effects ⟨3, false, 0, ⟨2, 2, 50⟩⟩ ⟨true⟩ 100).2.2.2.2.2.2.2.1
      500 (by omega),
   (obstacle_collision_effects ⟨3, false, 0, ⟨2, 2, 50⟩⟩ ⟨true⟩ 100).2.2.2.2.2.2.2.2
      2100 (by omega)⟩

/-- C4.  GhostTarget.checkCollision returns false for every arrow position
while the ghost is in its invisible phase, and in the visible phase it
coincides with the standard radius check: for an active target it reports a
hit exactly when the squared distance from the arrow to the target's world
position is below (size + 0.2) squared. -/
theorem ghost_collision_phases (g : GhostState) (p : Vec3) :
    (g.isVisible = false → g.checkCollision p = false) ∧
    (g.isVisible = true → g.checkCollision p = g.base.checkCollision p) ∧
    (g.isVisible = true → g.base.isActive = true →
      (g.checkCollision p = true ↔ distSq p g.base.worldPos < (g.base.size + 1/5)^2)) := by
  refine ⟨fun h => ?_, fun h => ?_, fun h ha => ?_⟩
  · simp [GhostState.checkCollision, h]
  · simp [GhostState.checkCollision, h]
  · simp [GhostState.checkCollision, TargetBase.checkCollision, h, ha]

/-- C4 witness: an invisible ghost at distance zero reports no hit; the same
ghost visible reports a hit at distance zero. -/
theorem ghost_collision_phases_witness :
    GhostState.checkCollision ⟨⟨true, 7/20, ⟨0, 0, 0⟩⟩, false⟩ ⟨0, 0, 0⟩ = false ∧
    GhostState.checkCollision ⟨⟨true, 7/20, ⟨0, 0, 0⟩⟩, true⟩ ⟨0, 0, 0⟩ = true := by
  constructor
  · exact (ghost_collision_phases ⟨⟨true, 7/20, ⟨0, 0, 0⟩⟩, false⟩ ⟨0, 0, 0⟩).1 rfl
  · have h := (ghost_collision_phases ⟨⟨true, 7/20, ⟨0, 0, 0⟩⟩, true⟩ ⟨0, 0, 0⟩).2.2 rfl rfl
    rw [h]
    norm_num [distSq]

/-- C5.  For an active Magnetic target (size 0.4), getMagneticForce is none
whenever the arrow's distance d satisfies d >= MAGNETIC_RANGE (3) or
d <= size; otherwise it is a positive multiple of the vector from the arrow
to the target whose squared magnitude is (0.3 * (1 - d/3))^2, and that
magnitude 0.3 * (1 - d/3) is positive and strictly decreasing in d up to
the range boundary. -/
theorem magnetic_force_profile (t a : Vec3) (d : ℚ)
    (hdist : d^2 = distSq a t) :
    (MAGNETIC_RANGE ≤ d ∨ d ≤ MAGNETIC_SIZE →
      getMagneticForce true MAGNETIC_SIZE t a d = none) ∧
    (MAGNETIC_SIZE < d → d < MAGNETIC_RANGE →
      getMagneticForce true MAGNETIC_SIZE t a d =
        some (smul (MAGNETIC_FORCE * (1 - d / MAGNETIC_RANGE) / d) (vsub t a)) ∧
      0 < MAGNETIC_FORCE * (1 - d / MAGNETIC_RANGE) / d ∧
      magSq (smul (MAGNETIC_FORCE * (1 - d / MAGNETIC_RANGE) / d) (vsub t a)) =
        (MAGNETIC_FORCE * (1 - d / MAGNETIC_RANGE))^2) ∧
    (∀ e : ℚ, MAGNETIC_SIZE < d → d < e → e < MAGNETIC_RANGE →
      MAGNETIC_FORCE * (1 - e / MAGNETIC_RANGE) < MAGNETIC_FORCE * (1 - d / MAGNETIC_RANGE)) := by
  simp only [MAGNETIC_RANGE, MAGNETIC_SIZE, MAGNETIC_FORCE] at *
  refine ⟨fun h => ?_, fun h1 h2 => ⟨?_, ?_, ?_⟩, fun e h1 h2 h3 => by nlinarith⟩
  · rcases h with h | h <;>
      simp [getMagneticForce, MAGNETIC_RANGE, MAGNETIC_SIZE] <;> intro h1 <;> linarith
  · simp only [getMagneticForce, MAGNETIC_RANGE, MAGNETIC_SIZE, MAGNETIC_FORCE]
    rw [if_neg (by simp), if_pos ⟨h2, h1⟩]
  · have hd0 : 0 < d := by linarith
    have hm : 0 < 1 - d / 3 := by linarith
    positivity
  · have hd0 : d ≠ 0 := by intro h; rw [h] at h1; norm_num at h1
    have hmag : magSq (vsub t a) = d^2 := by
      rw [hdist]; simp only [magSq, vsub, distSq]; ring
    simp only [magSq, smul] at *
    field_simp
    nlinarith [hmag]

/-- C5 witness: arrow at distance 1 (inside the field) and at distance 3
(at the range boundary), with a further arrow at distance 2 for the strict
decrease. -/
theorem magnetic_force_profile_witness :
    getMagneticForce true MAGNETIC_SIZE ⟨0, 0, 0⟩ ⟨3, 0, 0⟩ 3 = none ∧
    getMagneticForce true MAGNETIC_SIZE ⟨0, 0, 0⟩ ⟨1, 0, 0⟩ 1 =
      some (smul (MAGNETIC_FORCE * (1 - 1 / MAGNETIC_RANGE) / 1) (vsub ⟨0, 0, 0⟩ ⟨1, 0, 0⟩)) ∧
    MAGNETIC_FORCE * (1 - 2 / MAGNETIC_RANGE) < MAGNETIC_FORCE * (1 - 1 / MAGNETIC_RANGE) := by
  refine ⟨(magnetic_force_profile ⟨0, 0, 0⟩ ⟨3, 0, 0⟩ 3 (by norm_num [distSq])).1
      (Or.inl (by norm_num [MAGNETIC_RANGE])), ?_, ?_⟩
  · exact ((magnetic_force_profile ⟨0, 0, 0⟩ ⟨1, 0, 0⟩ 1 (by norm_num [distSq])).2.1
      (by norm_num [MAGNETIC_SIZE]) (by norm_num [MAGNETIC_RANGE])).1
  · exact (magnetic_force_profile ⟨0, 0, 0⟩ ⟨1, 0, 0⟩ 1 (by norm_num [distSq])).2.2 2
      (by norm_num [MAGNETIC_SIZE]) (by norm_num) (by norm_num [MAGNETIC_RANGE])

/-- C6.  Hitting a SplitTarget below the maximum split depth (2) returns
its point value together with a split instruction, and the orchestrator
appends exactly two child split targets at angles wheelAngle minus and plus
the split offset, with depth incremented by 1 and size scaled by 0.7; at
maximum depth the hit returns a plain point award and the target list is
unchanged (zero children).  The hit target is deactivated either way. -/
theorem split_target_behavior (splitAngle angle : ℚ) (c : ℕ) (targets : List SplitRec) :
    (c < 2 →
      ((mkSplitTarget angle c).onHit splitAngle).2 =
        { points := 30
          special := some { splitLevel := c + 1
                            angles := [angle - splitAngle, angle + splitAngle] } } ∧
      applySplitSpecial targets ((mkSplitTarget angle c).onHit splitAngle).2 =
        targets ++ [mkSplitTarget (angle - splitAngle) (c + 1),
                    mkSplitTarget (angle + splitAngle) (c + 1)] ∧
      (mkSplitTarget (angle - splitAngle) (c + 1)).size =
        (7/10) * (mkSplitTarget angle c).size ∧
      (applySplitSpecial targets ((mkSplitTarget angle c).onHit splitAngle).2).length =
        targets.length + 2) ∧
    (2 ≤ c →
      ((mkSplitTarget angle c).onHit splitAngle).2 = { points := 30, special := none } ∧
      applySplitSpecial targets ((mkSplitTarget angle c).onHit splitAngle).2 = targets) ∧
    ((mkSplitTarget angle c).onHit splitAngle).1.isActive = false := by
  refine ⟨fun h => ?_, fun h => ?_, ?_⟩
  · have hc : c < MAX_SPLITS := h
    refine ⟨by simp [SplitRec.onHit, mkSplitTarget, if_pos hc, SPLIT_POINTS], ?_, ?_, ?_⟩
    · simp [SplitRec.onHit, mkSplitTarget, if_pos hc, applySplitSpecial]
    · simp only [mkSplitTarget, SPLIT_SIZE, SPLIT_SIZE_MULTIPLIER, pow_succ]
      ring
    · simp [SplitRec.onHit, mkSplitTarget, if_pos hc, applySplitSpecial]
  · have hc : ¬ (c < MAX_SPLITS) := by simp [MAX_SPLITS]; omega
    exact ⟨by simp [SplitRec.onHit, mkSplitTarget, if_neg hc, SPLIT_POINTS],
           by simp [SplitRec.onHit, mkSplitTarget, if_neg hc, applySplitSpecial]⟩
  · by_cases hc : c < MAX_SPLITS <;> simp [SplitRec.onHit, mkSplitTarget, hc]

/-- C6 witness: a depth-0 split hit produces two children; a depth-2 split
hit produces none. -/
theorem split_target_behavior_witness :
    (applySplitSpecial [] ((mkSplitTarget 0 0).onHit 1).2).length =
      ([] : List SplitRec).length + 2 ∧
    applySplitSpecial [] ((mkSplitTarget 0 2).onHit 1).2 = [] :=
  ⟨((split_target_behavior 1 0 0 []).1 (by omega)).2.2.2,
   ((split_target_behavior 1 0 2 []).2.1 (by omega)).2⟩

/-- C7 (counterexample).  The deactivating third miss does not shrink the
target: from a fresh Shrinking target, three misses leave size
0.6 * 0.85^2 = 867/2000, not 0.6 * 0.85^3, and the third miss does not
recompute the point value. -/
theorem shrinking_counterexample :
    (mkShrinkingTarget.onMiss.onMiss.onMiss).currentSize = 867/2000 ∧
    (3/5 : ℚ) * (17/20)^3 ≠ 867/2000 ∧
    (mkShrinkingTarget.onMiss.onMiss.onMiss).points =
      (mkShrinkingTarget.onMiss.onMiss).points := by
  norm_num [mkShrinkingTarget, ShrinkRec.onMiss, shrinkPoints, jsRound, SHRINK_SIZE_START,
    SHRINK_SIZE_MIN, SHRINK_RATE, MAX_MISSES, SHRINK_POINTS_MIN, SHRINK_POINTS_MAX]

/-- C7 (amended).  A miss that does not reach the miss limit multiplies the
size by 0.85 (clamped from below at the minimum size 0.2) and recomputes
the point value by linear interpolation between 10 and 75 as a function of
the new size; the miss that reaches MAX_MISSES = 3 deactivates the target
and leaves size and points unchanged; the size never drops below the
minimum (the source clamps instead of deactivating there); a deactivated
target reports no collision for any arrow position; a fresh target is
deactivated by exactly three consecutive misses, and its first miss
re-scores it to 60 points. -/
theorem shrinking_onmiss_rule (t : ShrinkRec) (b : TargetBase) (p : Vec3) :
    (t.missCount + 1 < 3 →
      t.onMiss.currentSize =
        (if t.currentSize * (17/20) < 1/5 then 1/5 else t.currentSize * (17/20)) ∧
      t.onMiss.points =
        jsRound (10 + (t.onMiss.currentSize - 1/5) / (3/5 - 1/5) * (75 - 10)) ∧
      t.onMiss.missCount = t.missCount + 1 ∧
      t.onMiss.isActive = t.isActive) ∧
    (3 ≤ t.missCount + 1 →
      t.onMiss = { t with missCount := t.missCount + 1, isActive := false }) ∧
    (1/5 ≤ t.currentSize → 1/5 ≤ t.onMiss.currentSize) ∧
    (b.isActive = false → b.checkCollision p = false) ∧
    (mkShrinkingTarget.onMiss.onMiss.onMiss).isActive = false ∧
    (mkShrinkingTarget.onMiss).points = 60 := by
  refine ⟨fun h => ?_, fun h => ?_, fun h => ?_, fun h => ?_, ?_, ?_⟩
  · have hn : ¬ (MAX_MISSES ≤ t.missCount + 1) := by simp only [MAX_MISSES]; omega
    refine ⟨?_, ?_, ?_, ?_⟩ <;>
      simp [ShrinkRec.onMiss, hn, shrinkPoints, SHRINK_RATE, SHRINK_SIZE_MIN,
        SHRINK_POINTS_MIN, SHRINK_POINTS_MAX, SHRINK_SIZE_START]
  · have hy : MAX_MISSES ≤ t.missCount + 1 := by simp only [MAX_MISSES]; omega
    simp [ShrinkRec.onMiss, hy]
  · by_cases hm : MAX_MISSES ≤ t.missCount + 1
    · simpa [ShrinkRec.onMiss, hm] using h
    · simp only [ShrinkRec.onMiss, if_neg hm, SHRINK_RATE, SHRINK_SIZE_MIN]
      rcases lt_or_le (t.currentSize * (17/20)) (1/5 : ℚ) with hs | hs
      · rw [if_pos hs]
      · rw [if_neg (not_lt.mpr hs)]
        exact hs
  · simp [TargetBase.checkCollision, h]
  · norm_num [mkShrinkingTarget, ShrinkRec.onMiss, MAX_MISSES, SHRINK_RATE, SHRINK_SIZE_MIN,
      SHRINK_SIZE_START]
  · norm_num [mkShrinkingTarget, ShrinkRec.onMiss, MAX_MISSES, SHRINK_RATE, SHRINK_SIZE_MIN,
      SHRINK_SIZE_START, shrinkPoints, jsRound, SHRINK_POINTS_MIN, SHRINK_POINTS_MAX]

/-- C7 witness: one miss on a fresh target shrinks it to 0.51 and keeps the
floor; the third miss deactivates; an inactive target at distance zero
reports no hit. -/
theorem shrinking_onmiss_rule_witness :
    (ShrinkRec.onMiss ⟨3/5, 0, 75, true⟩).currentSize =
      (if (3/5 : ℚ) * (17/20) < 1/5 then 1/5 else (3/5) * (17/20)) ∧
    ShrinkRec.onMiss ⟨867/2000, 2, 48, true⟩ =
      { currentSize := 867/2000, missCount := 3, points := 48, isActive := false } ∧
    (1/5 : ℚ) ≤ (ShrinkRec.onMiss ⟨1/5, 0, 10, true⟩).currentSize ∧
    TargetBase.checkCollision ⟨false, 3/5, ⟨0, 0, 0⟩⟩ ⟨0, 0, 0⟩ = false := by
  refine ⟨((shrinking_onmiss_rule ⟨3/5, 0, 75, true⟩ ⟨false, 3/5, ⟨0, 0, 0⟩⟩ ⟨0, 0, 0⟩).1
      (by decide)).1, ?_, ?_, ?_⟩
  · exact (shrinking_onmiss_rule ⟨867/2000, 2, 48, true⟩ ⟨false, 3/5, ⟨0, 0, 0⟩⟩
      ⟨0, 0, 0⟩).2.1 (by decide)
  · exact (shrinking_onmiss_rule ⟨1/5, 0, 10, true⟩ ⟨false, 3/5, ⟨0, 0, 0⟩⟩
      ⟨0, 0, 0⟩).2.2.1 (by norm_num)
  · exact (shrinking_onmiss_rule ⟨1/5, 0, 10, true⟩ ⟨false, 3/5, ⟨0, 0, 0⟩⟩
      ⟨0, 0, 0⟩).2.2.2.1 rfl

/-- Helper: a list containing two distinct elements has length at least 2. -/
theorem mem_pair_length {α : Type} {xs : List α} {a b : α} (hne : a ≠ b)
    (ha : a ∈ xs) (hb : b ∈ xs) : 2 ≤ xs.length := by
  induction xs with
  | nil => cases ha
  | cons x xs ih =>
    rcases List.mem_cons.mp ha with rfl | ha'
    · rcases List.mem_cons.mp hb with rfl | hb'
      · exact absurd rfl hne
      · have h1 : 0 < xs.length := List.length_pos.mpr (List.ne_nil_of_mem hb')
        simp only [List.length_cons]
        omega
    · have h1 : 0 < xs.length := List.length_pos.mpr (List.ne_nil_of_mem ha')
      simp only [List.length_cons]
      omega

/-- C8 (counterexample).  Two concurrent score-multiplier effects with
independent expiries break the claimed invariant: activate one at t = 0 and
one at t = 6000 (duration 12000 each); at the tick boundary t = 12000 the
first expires and the expiry pass resets the global multiplier to 1 even
though the second effect is still in the ledger, so
hasActive(SCORE_MULTIPLIER) is true while the multiplier is 1, not 3. -/
theorem score_multiplier_invariant_counterexample :
    hasActivePowerUp
      (updatePowerUpsExpiry
        (activatePowerUp (activatePowerUp ⟨[], 1⟩ PUType.scoreMultiplier 0)
          PUType.scoreMultiplier 6000) 12000)
      PUType.scoreMultiplier = true ∧
    (updatePowerUpsExpiry
        (activatePowerUp (activatePowerUp ⟨[], 1⟩ PUType.scoreMultiplier 0)
          PUType.scoreMultiplier 6000) 12000).scoreMultiplier = 1 := by
  norm_num [hasActivePowerUp, updatePowerUpsExpiry, activatePowerUp, effectExpired,
    getPowerUpDuration, SCORE_MULTIPLIER_VALUE]

/-- C8 (amended).  The invariant "global multiplier = 3 iff a
score-multiplier effect is in the ledger, and 1 otherwise" holds initially,
is preserved by every activation, and is preserved by the expiry pass
whenever the ledger holds at most one score-multiplier effect — but not in
general: with multiple concurrent score-multiplier effects the pass resets
the multiplier to 1 as soon as the first of them expires (see the
counterexample). -/
theorem score_multiplier_ledger_invariant (s : LedgerState) (ty : PUType) (now : ℤ) :
    smInvariant ⟨[], 1⟩ ∧
    (smInvariant s → smInvariant (activatePowerUp s ty now)) ∧
    (smInvariant s → scoreEffectCount s ≤ 1 → smInvariant (updatePowerUpsExpiry s now)) := by
  refine ⟨⟨by simp [hasActivePowerUp]; norm_num [SCORE_MULTIPLIER_VALUE], Or.inl rfl⟩,
    fun hInv => ?_, fun hInv hCount => ?_⟩
  · by_cases hty : ty = PUType.scoreMultiplier
    · subst hty
      have hact : hasActivePowerUp (activatePowerUp s PUType.scoreMultiplier now)
          PUType.scoreMultiplier = true := by
        simp [hasActivePowerUp, activatePowerUp]
      refine ⟨?_, Or.inr (by simp [activatePowerUp])⟩
      rw [hact]
      simp [activatePowerUp]
    · have hsm : (activatePowerUp s ty now).scoreMultiplier = s.scoreMultiplier := by
        simp [activatePowerUp, hty]
      have hact : hasActivePowerUp (activatePowerUp s ty now) PUType.scoreMultiplier =
          hasActivePowerUp s PUType.scoreMultiplier := by
        simp [hasActivePowerUp, activatePowerUp, hty]
      simp only [smInvariant]
      rw [hsm, hact]
      exact hInv
  · by_cases hexp : s.activePowerUps.any
        (fun e => effectExpired now e && decide (e.type = PUType.scoreMultiplier)) = true
    · have hsm : (updatePowerUpsExpiry s now).scoreMultiplier = 1 := by
        simp [updatePowerUpsExpiry, hexp]
      have hact : hasActivePowerUp (updatePowerUpsExpiry s now) PUType.scoreMultiplier
          = false := by
        rw [← Bool.not_eq_true]
        intro hc
        obtain ⟨e1, he1mem, he1⟩ := List.any_eq_true.mp hexp
        rw [Bool.and_eq_true, decide_eq_true_eq] at he1
        obtain ⟨e2, he2mem, he2⟩ := List.any_eq_true.mp
          (show (s.activePowerUps.filter (fun e => !effectExpired now e)).any
              (fun e => decide (e.type = PUType.scoreMultiplier)) = true from hc)
        rw [decide_eq_true_eq] at he2
        rw [List.mem_filter] at he2mem
        have hne : e1 ≠ e2 := by
          intro h
          have hT : effectExpired now e2 = true := h ▸ he1.1
          have hF : effectExpired now e2 = false := by simpa using he2mem.2
          rw [hT] at hF
          cases hF
        have he1f : e1 ∈ s.activePowerUps.filter
            (fun e => decide (e.type = PUType.scoreMultiplier)) :=
          List.mem_filter.mpr ⟨he1mem, by simp [he1.2]⟩
        have he2f : e2 ∈ s.activePowerUps.filter
            (fun e => decide (e.type = PUType.scoreMultiplier)) :=
          List.mem_filter.mpr ⟨he2mem.1, by simp [he2]⟩
        have h2 := mem_pair_length hne he1f he2f
        have h3 : 2 ≤ scoreEffectCount s := by simpa [scoreEffectCount] using h2
        omega
      simp only [smInvariant]
      rw [hsm, hact]
      constructor
      · norm_num [SCORE_MULTIPLIER_VALUE]
      · exact Or.inl rfl
    · have hsm : (updatePowerUpsExpiry s now).scoreMultiplier = s.scoreMultiplier := by
        simp only [updatePowerUpsExpiry, if_neg hexp]
      have hactIff : (hasActivePowerUp (updatePowerUpsExpiry s now) PUType.scoreMultiplier
            = true) ↔
          (hasActivePowerUp s PUType.scoreMultiplier = true) := by
        simp only [hasActivePowerUp, updatePowerUpsExpiry, List.any_eq_true, List.mem_filter]
        constructor
        · rintro ⟨e, ⟨hmem, -⟩, hty2⟩
          exact ⟨e, hmem, hty2⟩
        · rintro ⟨e, hmem, hty2⟩
          refine ⟨e, ⟨hmem, ?_⟩, hty2⟩
          cases hE : effectExpired now e
          · rfl
          · exact absurd (List.any_eq_true.mpr ⟨e, hmem, by simp [hE, hty2]⟩) hexp
      simp only [smInvariant] at hInv ⊢
      rw [hsm]
      exact ⟨hInv.1.trans hactIff.symm, hInv.2⟩

/-- C8 witness: a singleton score-multiplier ledger keeps the invariant
through an expiry pass, and activation establishes it. -/
theorem score_multiplier_ledger_invariant_witness :
    smInvariant (activatePowerUp ⟨[], 1⟩ PUType.scoreMultiplier 0) ∧
    smInvariant (updatePowerUpsExpiry ⟨[⟨PUType.scoreMultiplier, 0, 12000⟩], 3⟩ 5000) := by
  constructor
  · exact (score_multiplier_ledger_invariant ⟨[], 1⟩ PUType.scoreMultiplier 0).2.1
      ⟨by simp [hasActivePowerUp]; norm_num [SCORE_MULTIPLIER_VALUE], Or.inl rfl⟩
  · refine (score_multiplier_ledger_invariant
        ⟨[⟨PUType.scoreMultiplier, 0, 12000⟩], 3⟩ PUType.scoreMultiplier 5000).2.2
      ⟨?_, Or.inr rfl⟩ (by simp [scoreEffectCount])
    simp [hasActivePowerUp, SCORE_MULTIPLIER_VALUE]

/-- C9 (counterexample).  The 5-target cap is not an invariant of the
active-target set: split children are appended in Game.checkCollisions
without consulting the cap, so hitting a below-max-depth Split target on a
full wheel of 5 targets leaves 6 targets (the parent is removed, two
children are added). -/
theorem target_cap_counterexample :
    ([mkSplitTarget 1 0, mkSplitTarget 2 0, mkSplitTarget 3 0, mkSplitTarget 4 0,
      mkSplitTarget 0 0] : List SplitRec).length = MAX_TARGETS_ON_WHEEL ∧
    (processSplitHit
      [mkSplitTarget 1 0, mkSplitTarget 2 0, mkSplitTarget 3 0, mkSplitTarget 4 0]
      (mkSplitTarget 0 0) 1).length = MAX_TARGETS_ON_WHEEL + 1 := by
  constructor
  · simp [MAX_TARGETS_ON_WHEEL]
  · norm_num [processSplitHit, applySplitSpecial, SplitRec.onHit, mkSplitTarget, MAX_SPLITS,
      MAX_TARGETS_ON_WHEEL]

/-- C9 (amended).  Game.spawnTarget itself never pushes the target count
above MAX_TARGETS_ON_WHEEL = 5 (it returns unchanged at or above the cap);
a spawned target's angle is one of at most 10 random attempts and is at
least the minimum angular distance from every occupied slot (raw difference
within [mu, tau - mu]); the spawn cycle is skipped when no attempt is
valid; and an empty target list is force-filled with a Standard target, so
the list is non-empty at the end of every tick.  The 5-target bound is not
a global invariant, since split children bypass spawnTarget (see the
counterexample). -/
theorem spawn_policy (targets : List TargetSlot) (attempts : List ℚ) (roll mu tau : ℚ) :
    (MAX_TARGETS_ON_WHEEL ≤ targets.length →
      spawnTarget targets attempts roll mu tau = targets) ∧
    (targets.length ≤ MAX_TARGETS_ON_WHEEL →
      (spawnTarget targets attempts roll mu tau).length ≤ MAX_TARGETS_ON_WHEEL) ∧
    (∀ k a, spawnTarget targets attempts roll mu tau = targets ++ [⟨k, a⟩] →
      a ∈ attempts.take 10 ∧
      ∀ o ∈ targets.map TargetSlot.wheelAngle, mu ≤ |a - o| ∧ |a - o| ≤ tau - mu) ∧
    (findValidAngle mu tau (targets.map TargetSlot.wheelAngle) attempts = none →
      spawnTarget targets attempts roll mu tau = targets) ∧
    ensureTargetPresent [] = [⟨TargetType.standard, 0⟩] ∧
    (∀ ts : List TargetSlot, ensureTargetPresent ts ≠ []) := by
  refine ⟨fun h => by simp [spawnTarget, if_pos h], fun h => ?_, fun k a h => ?_,
    fun h => ?_, rfl, fun ts => ?_⟩
  · by_cases hc : MAX_TARGETS_ON_WHEEL ≤ targets.length
    · simpa [spawnTarget, if_pos hc] using h
    · simp only [spawnTarget, if_neg hc]
      cases hf : findValidAngle mu tau (targets.map TargetSlot.wheelAngle) attempts with
      | none => exact h
      | some a =>
        cases hs : selectSpawnKind roll with
        | none => exact h
        | some k =>
          simp only [List.length_append, List.length_cons, List.length_nil]
          simp only [MAX_TARGETS_ON_WHEEL, not_le] at hc ⊢
          omega
  · by_cases hc : MAX_TARGETS_ON_WHEEL ≤ targets.length
    · rw [spawnTarget.eq_def, if_pos hc] at h
      exfalso
      have hlen := congrArg List.length h
      simp at hlen
    · rw [spawnTarget.eq_def, if_neg hc] at h
      cases hf : findValidAngle mu tau (targets.map TargetSlot.wheelAngle) attempts with
      | none =>
        rw [hf] at h
        exfalso
        have hlen := congrArg List.length h
        simp at hlen
      | some a2 =>
        rw [hf] at h
        cases hs : selectSpawnKind roll with
        | none =>
          rw [hs] at h
          exfalso
          have hlen := congrArg List.length h
          simp at hlen
        | some k2 =>
          rw [hs] at h
          have h2 := List.append_cancel_left h
          have h3 : k2 = k ∧ a2 = a := by
            simpa [TargetSlot.mk.injEq] using h2
          obtain ⟨rfl, rfl⟩ := h3
          have hmem : a2 ∈ attempts.take 10 := List.mem_of_find?_eq_some hf
          have hvalid : angleValid mu tau (targets.map TargetSlot.wheelAngle) a2 = true :=
            List.find?_some hf
          refine ⟨hmem, fun o ho => ?_⟩
          have hall := List.all_eq_true.mp hvalid o ho
          simp only [Bool.not_eq_true', Bool.or_eq_false_iff, decide_eq_false_iff_not,
            not_lt] at hall
          exact ⟨hall.1, hall.2⟩
  · by_cases hc : MAX_TARGETS_ON_WHEEL ≤ targets.length
    · simp [spawnTarget, if_pos hc]
    · simp [spawnTarget, if_neg hc, h]
  · cases ts with
    | nil => simp [ensureTargetPresent]
    | cons x xs => simp [ensureTargetPresent]

/-- C9 witness: a full wheel of 5 is left unchanged; a spawn into an empty
wheel stays within the cap and uses the first random attempt. -/
theorem spawn_policy_witness :
    spawnTarget [⟨TargetType.standard, 0⟩, ⟨TargetType.gold, 1⟩, ⟨TargetType.speed, 2⟩,
        ⟨TargetType.bonus, 3⟩, ⟨TargetType.split, 4⟩] [] 0 (1/2) 7 =
      [⟨TargetType.standard, 0⟩, ⟨TargetType.gold, 1⟩, ⟨TargetType.speed, 2⟩,
        ⟨TargetType.bonus, 3⟩, ⟨TargetType.split, 4⟩] ∧
    (spawnTarget [] [0] (1/2) (1/2) 7).length ≤ MAX_TARGETS_ON_WHEEL ∧
    ((0 : ℚ) ∈ ([0] : List ℚ).take 10 ∧
      ∀ o ∈ ([] : List TargetSlot).map TargetSlot.wheelAngle,
        (1/2 : ℚ) ≤ |0 - o| ∧ |0 - o| ≤ 7 - 1/2) ∧
    ensureTargetPresent [⟨TargetType.gold, 2⟩] ≠ [] := by
  refine ⟨(spawn_policy _ [] 0 (1/2) 7).1 (by decide),
    (spawn_policy [] [0] (1/2) (1/2) 7).2.1 (by decide),
    (spawn_policy [] [0] (1/2) (1/2) 7).2.2.1 TargetType.speed 0 ?_,
    (spawn_policy [] [] 0 0 0).2.2.2.2.2 [⟨TargetType.gold, 2⟩]⟩
  norm_num [spawnTarget, MAX_TARGETS_ON_WHEEL, findValidAngle, angleValid, selectSpawnKind,
    spawnChances]

/-- C10.  The scoring-band test in the miss branch of Game.checkCollisions
is z < -20 && z > -10, which no z satisfies, so the branch is dead: no tick
ever delivers onMiss to any target — in particular an active arrow at
z = -15 (strictly between -20 and -10) that hit nothing leaves every active
Shrinking target's miss count untouched, contrary to the claim (and to the
spec's miss semantics, which this code path was clearly meant to
implement). -/
theorem miss_band_never_fires (hitAnyTarget arrowActive : Bool) (arrowZ : ℚ)
    (targets : List ShrinkRec) :
    missBandCheck arrowZ = false ∧
    missBroadcast hitAnyTarget arrowActive arrowZ targets = targets ∧
    missBroadcast false true (-15) [mkShrinkingTarget] = [mkShrinkingTarget] := by
  have hz : ∀ z : ℚ, missBandCheck z = false := by
    intro z
    rcases le_or_lt (-20 : ℚ) z with h | h
    · have hd : decide (z < -20) = false := decide_eq_false (not_lt.mpr h)
      simp [missBandCheck, hd]
    · have hd : decide (-10 < z) = false := decide_eq_false (not_lt.mpr (by linarith))
      simp [missBandCheck, hd]
  exact ⟨hz arrowZ, by simp [missBroadcast, hz], by simp [missBroadcast, hz]⟩

end Bleda
